import Mathlib

/-!
# Verification of the particle-simulation core of `TestTask-Canvas`

Shallow embedding of `src/App.tsx`: the `Particle` class (fields `x`, `y`,
`size`, `dirX`, `dirY`, `color`), its methods `collideWithRadius` and `move`,
and the host helper `findParticleWithCords`.  Numbers are modelled as
rationals (the source works on JS numbers treated as reals by the spec);
reference identity of particle objects is modelled by an `id` field that no
simulation operation ever changes.
-/

/-- Configuration constant `MOUSE_COLLISION_RADIUS = 10` from `App.tsx`. -/
def MOUSE_COLLISION_RADIUS : ℚ := 10

/-- Configuration constant `PARTICLE_COLLISION_VELOCITY = 0.005`. -/
def PARTICLE_COLLISION_VELOCITY : ℚ := 0.005

/-- Configuration constant `PARTICLE_VELOCITY_LEAK_MODIFIER = 0.002`. -/
def PARTICLE_VELOCITY_LEAK_MODIFIER : ℚ := 0.002

/-- Configuration constant `MAX_PARTICLE_SIZE = 15`. -/
def MAX_PARTICLE_SIZE : ℚ := 15

/-- Configuration constant `MIN_PARTICLE_SIZE = 5`. -/
def MIN_PARTICLE_SIZE : ℚ := 5

/-- The canvas mode: `type TCanvasMode = 'collision' | 'edit'`. -/
inductive TCanvasMode where
  | collision
  | edit
deriving DecidableEq, Repr

/-- One particle: fields `x`, `y`, `size` (the radius), velocity `dirX`,
`dirY`, and the cosmetic `color`.  The extra `id` stands for the JS object's
reference identity, used only for the `this === p1` self-exclusion test. -/
structure Particle where
  x : ℚ
  y : ℚ
  size : ℚ
  dirX : ℚ
  dirY : ℚ
  color : String
  id : Nat
deriving DecidableEq, Repr

/-- The collision trigger of `collideWithRadius`: the source tests
`Math.sqrt(dx*dx + dy*dy) < collisionRadius + this.size`.  Over the reals
this holds iff the threshold is positive and the squared distance is below
the squared threshold (see `collides_iff_sqrt_lt`), which is the decidable
form used here. -/
def collides (p : Particle) (cx cy collisionRadius : ℚ) : Prop :=
  0 < collisionRadius + p.size ∧
    (cx - p.x) ^ 2 + (cy - p.y) ^ 2 < (collisionRadius + p.size) ^ 2

instance (p : Particle) (cx cy r : ℚ) : Decidable (collides p cx cy r) := by
  unfold collides
  infer_instance

/-- `collides` is a faithful rendering of the source's
`distance < collisionRadius + this.size` with `distance` the Euclidean
distance from the particle's center to the point. -/
theorem collides_iff_sqrt_lt (p : Particle) (cx cy r : ℚ) :
    collides p cx cy r ↔
      Real.sqrt ((((cx : ℝ) - p.x)) ^ 2 + (((cy : ℝ) - p.y)) ^ 2) <
        (r : ℝ) + p.size := by
  constructor
  · rintro ⟨hpos, hlt⟩
    have hpos' : (0 : ℝ) < (r : ℝ) + p.size := by exact_mod_cast hpos
    have hlt' : (((cx : ℝ) - p.x)) ^ 2 + (((cy : ℝ) - p.y)) ^ 2 <
        ((r : ℝ) + p.size) ^ 2 := by
      exact_mod_cast hlt
    calc Real.sqrt ((((cx : ℝ) - p.x)) ^ 2 + (((cy : ℝ) - p.y)) ^ 2)
        < Real.sqrt (((r : ℝ) + p.size) ^ 2) := by
          apply Real.sqrt_lt_sqrt (by positivity) hlt'
      _ = (r : ℝ) + p.size := Real.sqrt_sq hpos'.le
  · intro h
    have hd0 : (0 : ℝ) ≤ (((cx : ℝ) - p.x)) ^ 2 + (((cy : ℝ) - p.y)) ^ 2 := by
      positivity
    have hpos' : (0 : ℝ) < (r : ℝ) + p.size :=
      lt_of_le_of_lt (Real.sqrt_nonneg _) h
    have hlt' : (((cx : ℝ) - p.x)) ^ 2 + (((cy : ℝ) - p.y)) ^ 2 <
        ((r : ℝ) + p.size) ^ 2 := by
      have := Real.sq_sqrt hd0
      nlinarith [Real.sqrt_nonneg ((((cx : ℝ) - p.x)) ^ 2 + (((cy : ℝ) - p.y)) ^ 2)]
    constructor
    · exact_mod_cast hpos'
    · exact_mod_cast hlt'

/-- `Particle.collideWithRadius(cords, collisionRadius)`: if the Euclidean
distance from the center to `cords` is below `collisionRadius + size`, add a
fixed impulse on each axis, directed away from `cords`, with no impulse on an
axis where the coordinates are equal.  Only the velocity is touched. -/
def collideWithRadius (p : Particle) (cx cy collisionRadius : ℚ) : Particle :=
  if collides p cx cy collisionRadius then
    let p1 := if p.x < cx then { p with dirX := p.dirX - PARTICLE_COLLISION_VELOCITY } else p
    let p2 := if p1.x > cx then { p1 with dirX := p1.dirX + PARTICLE_COLLISION_VELOCITY } else p1
    let p3 := if p2.y < cy then { p2 with dirY := p2.dirY - PARTICLE_COLLISION_VELOCITY } else p2
    if p3.y > cy then { p3 with dirY := p3.dirY + PARTICLE_COLLISION_VELOCITY } else p3
  else p

/-- The collision-accumulation phase of `Particle.move`: the pointer
collision (only in `collision` mode), then one `collideWithRadius` per other
particle in array order, skipping itself by identity. -/
def collidePhase (p : Particle) (mouseX mouseY : ℚ) (particlesArr : List Particle)
    (mode : TCanvasMode) : Particle :=
  let p0 := match mode with
    | TCanvasMode.collision => collideWithRadius p mouseX mouseY MOUSE_COLLISION_RADIUS
    | TCanvasMode.edit => p
  particlesArr.foldl
    (fun q p1 => if q.id = p1.id then q else collideWithRadius q p1.x p1.y p1.size) p0

/-- The X-axis boundary handling of `Particle.move`: when the particle
touches or crosses a vertical wall, `dirX *= -0.5`, `dirY *= 0.5`, and `x`
is clamped into `[size, width - size]`. -/
def bounceX (width : ℚ) (p : Particle) : Particle :=
  if p.x + p.size ≥ width ∨ p.x - p.size ≤ 0 then
    { p with dirX := p.dirX * (-0.5), dirY := p.dirY * 0.5,
             x := min (max p.size p.x) (width - p.size) }
  else p

/-- The Y-axis boundary handling of `Particle.move`, run unconditionally
after the X-axis one: `dirY *= -0.5`, `dirX *= 0.5`, clamp `y`. -/
def bounceY (height : ℚ) (p : Particle) : Particle :=
  if p.y + p.size ≥ height ∨ p.y - p.size ≤ 0 then
    { p with dirY := p.dirY * (-0.5), dirX := p.dirX * 0.5,
             y := min (max p.size p.y) (height - p.size) }
  else p

/-- The integration step of `Particle.move`: `x += dirX; y += dirY`. -/
def integrate (p : Particle) : Particle :=
  { p with x := p.x + p.dirX, y := p.y + p.dirY }

/-- The velocity-leak step of `Particle.move`: when enabled,
`dirX -= dirX * LEAK; dirY -= dirY * LEAK`. -/
def leakStep (velocity_leak : Bool) (p : Particle) : Particle :=
  if velocity_leak then
    { p with dirX := p.dirX - p.dirX * PARTICLE_VELOCITY_LEAK_MODIFIER,
             dirY := p.dirY - p.dirY * PARTICLE_VELOCITY_LEAK_MODIFIER }
  else p

/-- `Particle.move(mousePos, particlesArr, mode, velocity_leak)`: pointer
collision, pairwise collisions, boundary handling on both axes, position
integration, optional velocity leak — in exactly that order, as in the
source.  `width`/`height` are the canvas bounds the source reads from
`this.canvas`. -/
def move (p : Particle) (mouseX mouseY : ℚ) (particlesArr : List Particle)
    (mode : TCanvasMode) (velocity_leak : Bool) (width height : ℚ) : Particle :=
  leakStep velocity_leak
    (integrate (bounceY height (bounceX width
      (collidePhase p mouseX mouseY particlesArr mode))))

/-- Iterated stepping of a single particle with the velocity leak enabled:
tick `k` calls `move` with the pointer at `(mx k, my k)` and the neighbor
array `arr k`, as the host's animation loop does for each frame. -/
def evolve (p : Particle) (mx my : ℕ → ℚ) (arr : ℕ → List Particle)
    (mode : TCanvasMode) (w h : ℚ) : ℕ → Particle
  | 0 => p
  | k + 1 => move (evolve p mx my arr mode w h k) (mx k) (my k) (arr k) mode true w h

/-- The hit-test predicate of `findParticleWithCords`: the point lies in the
particle's square bounding box `[x-size, x+size] × [y-size, y+size]`. -/
def inBox (p : Particle) (x y : ℚ) : Bool :=
  decide (p.x - p.size ≤ x) && decide (p.x + p.size ≥ x) &&
    decide (p.y - p.size ≤ y) && decide (p.y + p.size ≥ y)

/-- `findParticleWithCords(x, y)`: `particles.find(p => ...)`, the first
particle in iteration order whose bounding box contains the point. -/
def findParticleWithCords (particles : List Particle) (x y : ℚ) :
    Option Particle :=
  particles.find? (fun p => inBox p x y)

/-! ## Helper lemmas about the phases of `move` -/

lemma collideWithRadius_of_not {p : Particle} {cx cy r : ℚ}
    (h : ¬ collides p cx cy r) : collideWithRadius p cx cy r = p := by
  unfold collideWithRadius
  exact if_neg h

lemma collideWithRadius_frame (p : Particle) (cx cy r : ℚ) :
    (collideWithRadius p cx cy r).x = p.x ∧
    (collideWithRadius p cx cy r).y = p.y ∧
    (collideWithRadius p cx cy r).size = p.size ∧
    (collideWithRadius p cx cy r).color = p.color ∧
    (collideWithRadius p cx cy r).id = p.id := by
  unfold collideWithRadius
  dsimp only
  split_ifs <;> exact ⟨rfl, rfl, rfl, rfl, rfl⟩

lemma collideFold_id (l : List Particle) (p : Particle)
    (h : ∀ q ∈ l, p.id = q.id ∨ ¬ collides p q.x q.y q.size) :
    l.foldl
      (fun q p1 => if q.id = p1.id then q else collideWithRadius q p1.x p1.y p1.size)
      p = p := by
  induction l with
  | nil => rfl
  | cons a t ih =>
    simp only [List.foldl_cons]
    by_cases hid : p.id = a.id
    · rw [if_pos hid]
      exact ih fun q hq => h q (List.mem_cons_of_mem a hq)
    · rw [if_neg hid, collideWithRadius_of_not ((h a (List.mem_cons_self a t)).resolve_left hid)]
      exact ih fun q hq => h q (List.mem_cons_of_mem a hq)

lemma collidePhase_edit (p : Particle) (mx my : ℚ) (arr : List Particle) :
    collidePhase p mx my arr TCanvasMode.edit =
      arr.foldl
        (fun q p1 => if q.id = p1.id then q else collideWithRadius q p1.x p1.y p1.size)
        p := rfl

lemma bounceX_of_neg {p : Particle} {w : ℚ}
    (h : ¬ (p.x + p.size ≥ w ∨ p.x - p.size ≤ 0)) : bounceX w p = p := by
  unfold bounceX
  exact if_neg h

lemma bounceX_of_pos {p : Particle} {w : ℚ}
    (h : p.x + p.size ≥ w ∨ p.x - p.size ≤ 0) :
    bounceX w p = { p with dirX := p.dirX * (-0.5), dirY := p.dirY * 0.5,
                           x := min (max p.size p.x) (w - p.size) } := by
  unfold bounceX
  exact if_pos h

lemma bounceY_of_neg {p : Particle} {h : ℚ}
    (hc : ¬ (p.y + p.size ≥ h ∨ p.y - p.size ≤ 0)) : bounceY h p = p := by
  unfold bounceY
  exact if_neg hc

lemma bounceY_of_pos {p : Particle} {h : ℚ}
    (hc : p.y + p.size ≥ h ∨ p.y - p.size ≤ 0) :
    bounceY h p = { p with dirY := p.dirY * (-0.5), dirX := p.dirX * 0.5,
                           y := min (max p.size p.y) (h - p.size) } := by
  unfold bounceY
  exact if_pos hc

lemma move_phases (p : Particle) (mx my : ℚ) (arr : List Particle)
    (mode : TCanvasMode) (vl : Bool) (w h : ℚ) :
    move p mx my arr mode vl w h =
      leakStep vl (integrate (bounceY h (bounceX w (collidePhase p mx my arr mode)))) :=
  rfl


lemma bounceX_keeps_y (w : ℚ) (p : Particle) : (bounceX w p).y = p.y := by
  unfold bounceX
  split_ifs <;> rfl

lemma bounceX_keeps_size (w : ℚ) (p : Particle) : (bounceX w p).size = p.size := by
  unfold bounceX
  split_ifs <;> rfl

lemma bounceY_keeps_x (h : ℚ) (p : Particle) : (bounceY h p).x = p.x := by
  unfold bounceY
  split_ifs <;> rfl

lemma bounceY_keeps_size (h : ℚ) (p : Particle) : (bounceY h p).size = p.size := by
  unfold bounceY
  split_ifs <;> rfl

lemma bounceX_x_bounds (w : ℚ) (p : Particle) (hw : 2 * p.size ≤ w) :
    p.size ≤ (bounceX w p).x ∧ (bounceX w p).x ≤ w - p.size := by
  unfold bounceX
  split_ifs with hc
  · exact ⟨le_min (le_max_left _ _) (by linarith), min_le_right _ _⟩
  · push_neg at hc
    exact ⟨by linarith [hc.2], by linarith [hc.1]⟩

lemma bounceY_y_bounds (h : ℚ) (p : Particle) (hh : 2 * p.size ≤ h) :
    p.size ≤ (bounceY h p).y ∧ (bounceY h p).y ≤ h - p.size := by
  unfold bounceY
  split_ifs with hc
  · exact ⟨le_min (le_max_left _ _) (by linarith), min_le_right _ _⟩
  · push_neg at hc
    exact ⟨by linarith [hc.2], by linarith [hc.1]⟩

/-! ## The claims -/

/-- C1 (amended): after the boundary-clamp phase of `move` (both axis checks,
before the integration `x += dirX; y += dirY`), the particle's center lies in
`[size, width-size] × [size, height-size]`, provided its diameter fits the
arena.  The original claim — containment at the end of the whole step — fails,
because integration runs after the clamp (see `C1_counterexample`). -/
theorem C1_containment_after_clamp (p : Particle) (w h : ℚ)
    (hw : 2 * p.size ≤ w) (hh : 2 * p.size ≤ h) :
    p.size ≤ (bounceY h (bounceX w p)).x ∧
    (bounceY h (bounceX w p)).x ≤ w - p.size ∧
    p.size ≤ (bounceY h (bounceX w p)).y ∧
    (bounceY h (bounceX w p)).y ≤ h - p.size := by
  have hx := bounceX_x_bounds w p hw
  have hkx : (bounceY h (bounceX w p)).x = (bounceX w p).x := bounceY_keeps_x h _
  have hsz : (bounceX w p).size = p.size := bounceX_keeps_size w p
  have hy := bounceY_y_bounds h (bounceX w p) (by rw [hsz]; exact hh)
  rw [hsz] at hy
  rw [hkx]
  exact ⟨hx.1, hx.2, hy.1, hy.2⟩

/-- C1 witness: a corner particle is clamped into the arena. -/
theorem C1_witness :
    2 * (10 : ℚ) ≤ 200 ∧
    ((10 : ℚ) ≤ (bounceY 200 (bounceX 200 ⟨195, 5, 10, 3, 4, "c", 7⟩)).x ∧
     (bounceY 200 (bounceX 200 ⟨195, 5, 10, 3, 4, "c", 7⟩)).x ≤ 200 - 10 ∧
     (10 : ℚ) ≤ (bounceY 200 (bounceX 200 ⟨195, 5, 10, 3, 4, "c", 7⟩)).y ∧
     (bounceY 200 (bounceX 200 ⟨195, 5, 10, 3, 4, "c", 7⟩)).y ≤ 200 - 10) :=
  ⟨by norm_num,
   C1_containment_after_clamp ⟨195, 5, 10, 3, 4, "c", 7⟩ 200 200
     (by norm_num) (by norm_num)⟩

/-- C1 counterexample: a particle at the arena center with `dirX = 150`
triggers no boundary check, so after the full step its center sits at
`x = 250 > width - size = 190`: containment after `move` completes is false. -/
theorem C1_counterexample :
    (move ⟨100, 100, 10, 150, 0, "c", 0⟩ 0 0 [] TCanvasMode.edit false 200 200).x
      = 250 ∧
    ¬ ((move ⟨100, 100, 10, 150, 0, "c", 0⟩ 0 0 [] TCanvasMode.edit false 200 200).x
        ≤ 200 -
          (move ⟨100, 100, 10, 150, 0, "c", 0⟩ 0 0 [] TCanvasMode.edit false 200 200).size) := by
  norm_num [move, collidePhase, bounceX, bounceY, integrate, leakStep,
    min_def, max_def]

/-- C2: in `edit` mode one step of a particle is independent of the pointer
position; in particular a pointer within collision range adds no
pointer-induced velocity. -/
theorem C2_edit_mode_pointer_independent (p : Particle) (mx my mx' my' : ℚ)
    (arr : List Particle) (vl : Bool) (w h : ℚ) :
    move p mx my arr TCanvasMode.edit vl w h =
      move p mx' my' arr TCanvasMode.edit vl w h := rfl

/-- C3 counterexample: at `x = width - size - 0.5` (`= 379/2` for
`width = 200`, `size = 10`) with `dirX = 1`, `x + size = width - 0.5 < width`,
so the boundary check does NOT fire on this step: after one `move`, `dirX` is
still `1` and `x = width - size + 0.5`, refuting "one step fires the X
boundary check, `vx` becomes `-0.5`, `x` is clamped to `width - radius`". -/
theorem C3_counterexample :
    (move ⟨200 - 10 - 0.5, 100, 10, 1, 0, "c", 0⟩ 0 0 [] TCanvasMode.edit false 200 200).dirX = 1 ∧
    (move ⟨200 - 10 - 0.5, 100, 10, 1, 0, "c", 0⟩ 0 0 [] TCanvasMode.edit false 200 200).x
      = 200 - 10 + 0.5 ∧
    ¬ ((move ⟨200 - 10 - 0.5, 100, 10, 1, 0, "c", 0⟩ 0 0 [] TCanvasMode.edit false 200 200).dirX
          = -0.5 ∧
       (move ⟨200 - 10 - 0.5, 100, 10, 1, 0, "c", 0⟩ 0 0 [] TCanvasMode.edit false 200 200).x
          = 200 - 10) := by
  norm_num [move, collidePhase, bounceX, bounceY, integrate, leakStep,
    min_def, max_def]

/-- C3 (amended): a particle at `x = width - size - 0.5` with velocity
`(1, 0)` does NOT trigger the X boundary check on the first step (since
`x + size = width - 0.5 < width`): that step leaves `dirX = 1` and moves the
center to `width - size + 0.5`.  The boundary check fires on the NEXT step,
which sets `dirX` to `-0.5`, clamps `x` to `width - size`, and then the
integration that follows the clamp leaves `x = width - size - 0.5`. -/
theorem C3_boundary_fires_next_step (w h y s : ℚ) (c : String) (i : ℕ)
    (hw : 2 * s + 1 ≤ w) (hy1 : s < y) (hy2 : y + s < h) :
    move ⟨w - s - 0.5, y, s, 1, 0, c, i⟩ 0 0 [] TCanvasMode.edit false w h =
      ⟨w - s + 0.5, y, s, 1, 0, c, i⟩ ∧
    (bounceX w ⟨w - s + 0.5, y, s, 1, 0, c, i⟩).x = w - s ∧
    (bounceX w ⟨w - s + 0.5, y, s, 1, 0, c, i⟩).dirX = -0.5 ∧
    move ⟨w - s + 0.5, y, s, 1, 0, c, i⟩ 0 0 [] TCanvasMode.edit false w h =
      ⟨w - s - 0.5, y, s, -0.5, 0, c, i⟩ := by
  have hb1 : bounceX w (⟨w - s - 0.5, y, s, 1, 0, c, i⟩ : Particle) =
      ⟨w - s - 0.5, y, s, 1, 0, c, i⟩ := by
    apply bounceX_of_neg
    dsimp only
    push_neg
    constructor <;> linarith
  have hb1y : bounceY h (⟨w - s - 0.5, y, s, 1, 0, c, i⟩ : Particle) =
      ⟨w - s - 0.5, y, s, 1, 0, c, i⟩ := by
    apply bounceY_of_neg
    dsimp only
    push_neg
    constructor <;> linarith
  have hmax : max s (w - s + 0.5) = w - s + 0.5 := max_eq_right (by linarith)
  have hmin : min (w - s + 0.5) (w - s) = w - s := min_eq_right (by linarith)
  have hb2 : bounceX w (⟨w - s + 0.5, y, s, 1, 0, c, i⟩ : Particle) =
      ⟨w - s, y, s, 1 * (-0.5), 0 * 0.5, c, i⟩ := by
    rw [bounceX_of_pos (by dsimp only; left; linarith)]
    dsimp only
    rw [hmax, hmin]
  have hb2y : bounceY h (⟨w - s, y, s, 1 * (-0.5), 0 * 0.5, c, i⟩ : Particle) =
      ⟨w - s, y, s, 1 * (-0.5), 0 * 0.5, c, i⟩ := by
    apply bounceY_of_neg
    dsimp only
    push_neg
    constructor <;> linarith
  refine ⟨?_, ?_, ?_, ?_⟩
  · rw [move_phases, collidePhase_edit, List.foldl_nil, hb1, hb1y]
    simp only [integrate, leakStep, if_neg Bool.false_ne_true]
    congr 1 <;> first | rfl | ring
  · rw [hb2]
  · rw [hb2]
    norm_num
  · rw [move_phases, collidePhase_edit, List.foldl_nil, hb2, hb2y]
    simp only [integrate, leakStep, if_neg Bool.false_ne_true]
    congr 1 <;> first | rfl | ring

/-- C3 witness: the two-step behavior at `width = height = 200`, `size = 10`,
`y = 100`. -/
theorem C3_witness :
    move ⟨200 - 10 - 0.5, 100, 10, 1, 0, "c", 0⟩ 0 0 [] TCanvasMode.edit false 200 200 =
      ⟨200 - 10 + 0.5, 100, 10, 1, 0, "c", 0⟩ ∧
    (bounceX 200 ⟨200 - 10 + 0.5, 100, 10, 1, 0, "c", 0⟩).x = 200 - 10 ∧
    (bounceX 200 ⟨200 - 10 + 0.5, 100, 10, 1, 0, "c", 0⟩).dirX = -0.5 ∧
    move ⟨200 - 10 + 0.5, 100, 10, 1, 0, "c", 0⟩ 0 0 [] TCanvasMode.edit false 200 200 =
      ⟨200 - 10 - 0.5, 100, 10, -0.5, 0, "c", 0⟩ :=
  C3_boundary_fires_next_step 200 200 100 10 "c" 0 (by norm_num) (by norm_num)
    (by norm_num)

/-- C4: in a 200×200 arena, a lone particle at `(100,100)` with radius `10`
and zero velocity, pointer also at `(100,100)` in `collision` mode: the
collision test fires (distance `0 < 10 + 10`), yet because the particle's
coordinate equals the point's on both axes, no impulse is added on either
axis — the velocity stays `(0, 0)` after the pointer-collision step and after
the whole `move`. -/
theorem C4_pointer_overlap_no_impulse :
    collides ⟨100, 100, 10, 0, 0, "c", 0⟩ 100 100 MOUSE_COLLISION_RADIUS ∧
    collideWithRadius ⟨100, 100, 10, 0, 0, "c", 0⟩ 100 100 MOUSE_COLLISION_RADIUS =
      ⟨100, 100, 10, 0, 0, "c", 0⟩ ∧
    (move ⟨100, 100, 10, 0, 0, "c", 0⟩ 100 100 [] TCanvasMode.collision false 200 200).dirX
      = 0 ∧
    (move ⟨100, 100, 10, 0, 0, "c", 0⟩ 100 100 [] TCanvasMode.collision false 200 200).dirY
      = 0 := by
  refine ⟨?_, ?_, ?_, ?_⟩ <;>
    norm_num [collides, collideWithRadius, move, collidePhase, bounceX, bounceY,
      integrate, leakStep, MOUSE_COLLISION_RADIUS, min_def, max_def]

/-- C5: when both the X and the Y boundary conditions hold on entry to the
boundary phase (a corner collision), each axis is damped twice: the velocity
the integration step then uses is `dirX * (-0.5) * 0.5 = -0.25 * dirX` and
`dirY * 0.5 * (-0.5) = -0.25 * dirY`. -/
theorem C5_corner_double_damp (p : Particle) (w h : ℚ)
    (hx : p.x + p.size ≥ w ∨ p.x - p.size ≤ 0)
    (hy : p.y + p.size ≥ h ∨ p.y - p.size ≤ 0) :
    (bounceY h (bounceX w p)).dirX = p.dirX * (-0.5) * 0.5 ∧
    (bounceY h (bounceX w p)).dirY = p.dirY * 0.5 * (-0.5) ∧
    (bounceY h (bounceX w p)).dirX = -0.25 * p.dirX ∧
    (bounceY h (bounceX w p)).dirY = -0.25 * p.dirY ∧
    (integrate (bounceY h (bounceX w p))).x =
      (bounceY h (bounceX w p)).x + p.dirX * (-0.5) * 0.5 ∧
    (integrate (bounceY h (bounceX w p))).y =
      (bounceY h (bounceX w p)).y + p.dirY * 0.5 * (-0.5) := by
  have h1 : bounceX w p =
      { p with dirX := p.dirX * (-0.5), dirY := p.dirY * 0.5,
               x := min (max p.size p.x) (w - p.size) } := bounceX_of_pos hx
  have h2 : bounceY h
      ({ p with dirX := p.dirX * (-0.5), dirY := p.dirY * 0.5,
                x := min (max p.size p.x) (w - p.size) } : Particle) =
      { x := min (max p.size p.x) (w - p.size),
        y := min (max p.size p.y) (h - p.size), size := p.size,
        dirX := p.dirX * (-0.5) * 0.5, dirY := p.dirY * 0.5 * (-0.5),
        color := p.color, id := p.id } := bounceY_of_pos hy
  rw [h1, h2]
  dsimp only [integrate]
  refine ⟨rfl, rfl, by ring, by ring, rfl, rfl⟩

/-- C5 witness: a particle overlapping the bottom-right corner. -/
theorem C5_witness :
    ((195 : ℚ) + 10 ≥ 200 ∨ (195 : ℚ) - 10 ≤ 0) ∧
    (bounceY 200 (bounceX 200 ⟨195, 195, 10, 4, 6, "c", 0⟩)).dirX = -0.25 * 4 :=
  ⟨by norm_num,
   (C5_corner_double_damp ⟨195, 195, 10, 4, 6, "c", 0⟩ 200 200
       (by norm_num) (by norm_num)).2.2.1⟩

/-- C7: the integration `x += dirX; y += dirY` uses the velocity as it stands
after collision accumulation and boundary handling; the leak, when enabled,
is applied only afterwards (`dirX -= dirX * LEAK`), and when disabled the
velocity is returned unchanged. -/
theorem C7_leak_applied_after_integration (p : Particle) (mx my : ℚ)
    (arr : List Particle) (mode : TCanvasMode) (w h : ℚ) :
    (move p mx my arr mode true w h).x =
      (bounceY h (bounceX w (collidePhase p mx my arr mode))).x +
        (bounceY h (bounceX w (collidePhase p mx my arr mode))).dirX ∧
    (move p mx my arr mode true w h).y =
      (bounceY h (bounceX w (collidePhase p mx my arr mode))).y +
        (bounceY h (bounceX w (collidePhase p mx my arr mode))).dirY ∧
    (move p mx my arr mode true w h).dirX =
      (bounceY h (bounceX w (collidePhase p mx my arr mode))).dirX -
        (bounceY h (bounceX w (collidePhase p mx my arr mode))).dirX *
          PARTICLE_VELOCITY_LEAK_MODIFIER ∧
    (move p mx my arr mode true w h).dirY =
      (bounceY h (bounceX w (collidePhase p mx my arr mode))).dirY -
        (bounceY h (bounceX w (collidePhase p mx my arr mode))).dirY *
          PARTICLE_VELOCITY_LEAK_MODIFIER ∧
    (move p mx my arr mode false w h).x =
      (bounceY h (bounceX w (collidePhase p mx my arr mode))).x +
        (bounceY h (bounceX w (collidePhase p mx my arr mode))).dirX ∧
    (move p mx my arr mode false w h).dirX =
      (bounceY h (bounceX w (collidePhase p mx my arr mode))).dirX ∧
    (move p mx my arr mode false w h).dirY =
      (bounceY h (bounceX w (collidePhase p mx my arr mode))).dirY :=
  ⟨rfl, rfl, rfl, rfl, rfl, rfl, rfl⟩

/-- C9: the pairwise collision trigger is symmetric — A's test against B
(threshold `B.size + A.size`) fires exactly when B's test against A
(threshold `A.size + B.size`) fires, the Euclidean distance being symmetric;
the impulses themselves are accumulated independently by each particle's own
`collideWithRadius` call. -/
theorem C9_trigger_symmetric (a b : Particle) :
    collides a b.x b.y b.size ↔ collides b a.x a.y a.size := by
  unfold collides
  have e1 : (a.x - b.x) ^ 2 = (b.x - a.x) ^ 2 := by ring
  have e2 : (a.y - b.y) ^ 2 = (b.y - a.y) ^ 2 := by ring
  have e3 : (a.size + b.size) ^ 2 = (b.size + a.size) ^ 2 := by ring
  constructor
  · rintro ⟨h1, h2⟩
    refine ⟨by linarith, ?_⟩
    rw [e1, e2, e3]
    exact h2
  · rintro ⟨h1, h2⟩
    refine ⟨by linarith, ?_⟩
    rw [← e1, ← e2, ← e3]
    exact h2

/-- C9 witness: two overlapping particles trigger in both directions. -/
theorem C9_witness :
    collides ⟨6, 0, 5, 0, 0, "b", 1⟩ 0 0 5 :=
  (C9_trigger_symmetric ⟨0, 0, 5, 0, 0, "a", 0⟩ ⟨6, 0, 5, 0, 0, "b", 1⟩).mp
    (by norm_num [collides])

/-- C10: `collideWithRadius` never changes position, radius, color (or the
identity); and when the Euclidean distance from the center to the point is at
least `collisionRadius + size`, it is a no-op (the velocity too is
unchanged) — and being a total function, it raises no error. -/
theorem C10_frame_and_no_effect (p : Particle) (cx cy r : ℚ) :
    ((collideWithRadius p cx cy r).x = p.x ∧
     (collideWithRadius p cx cy r).y = p.y ∧
     (collideWithRadius p cx cy r).size = p.size ∧
     (collideWithRadius p cx cy r).color = p.color ∧
     (collideWithRadius p cx cy r).id = p.id) ∧
    ((r : ℝ) + (p.size : ℝ) ≤
        Real.sqrt ((((cx : ℝ) - p.x)) ^ 2 + (((cy : ℝ) - p.y)) ^ 2) →
      collideWithRadius p cx cy r = p) := by
  refine ⟨collideWithRadius_frame p cx cy r, ?_⟩
  intro hd
  apply collideWithRadius_of_not
  intro hc
  exact absurd ((collides_iff_sqrt_lt p cx cy r).mp hc) (not_lt.mpr hd)

/-- C10 witness: a point well outside collision range leaves the particle
untouched. -/
theorem C10_witness :
    collideWithRadius ⟨0, 0, 5, 0, 0, "c", 0⟩ 100 0 10 = ⟨0, 0, 5, 0, 0, "c", 0⟩ :=
  (C10_frame_and_no_effect ⟨0, 0, 5, 0, 0, "c", 0⟩ 100 0 10).2 (by
    have h100 : Real.sqrt (10000 : ℝ) = 100 := by
      rw [show (10000 : ℝ) = 100 ^ 2 by norm_num]
      exact Real.sqrt_sq (by norm_num)
    push_cast
    norm_num
    rw [h100]
    norm_num)

lemma find_some_decomp (x y : ℚ) (q : Particle) :
    ∀ l : List Particle, findParticleWithCords l x y = some q →
      ∃ l1 l2 : List Particle, l = l1 ++ q :: l2 ∧ inBox q x y = true ∧
        ∀ r ∈ l1, inBox r x y = false := by
  intro l
  induction l with
  | nil => intro hf; simp [findParticleWithCords] at hf
  | cons a t ih =>
    intro hf
    unfold findParticleWithCords at hf
    cases hb : inBox a x y with
    | true =>
      rw [List.find?_cons_of_pos t
        (show (fun p => inBox p x y) a = true from hb)] at hf
      obtain rfl : a = q := Option.some.inj hf
      exact ⟨[], t, rfl, hb, by simp⟩
    | false =>
      rw [List.find?_cons_of_neg t
        (show ¬ (fun p => inBox p x y) a = true from by simp [hb])] at hf
      obtain ⟨l1, l2, hsplit, hq, hall⟩ := ih hf
      refine ⟨a :: l1, l2, by rw [hsplit]; rfl, hq, ?_⟩
      intro r hr
      rcases List.mem_cons.mp hr with rfl | hr
      · exact hb
      · exact hall r hr

lemma find_append_some (x y : ℚ) (q : Particle) (hq : inBox q x y = true) :
    ∀ l1 l2 : List Particle, (∀ r ∈ l1, inBox r x y = false) →
      findParticleWithCords (l1 ++ q :: l2) x y = some q := by
  intro l1
  induction l1 with
  | nil =>
    intro l2 _
    unfold findParticleWithCords
    exact List.find?_cons_of_pos l2 (show (fun p => inBox p x y) q = true from hq)
  | cons a t ih =>
    intro l2 hall
    unfold findParticleWithCords
    rw [List.cons_append,
      List.find?_cons_of_neg (t ++ q :: l2)
        (show ¬ (fun p => inBox p x y) a = true from by
          simp [hall a (List.mem_cons_self a t)])]
    exact ih l2 fun r hr => hall r (List.mem_cons_of_mem a hr)

/-- C8: `findParticleWithCords` returns "none" exactly when no particle's
square bounding box contains the point, and returns `some q` exactly when
`q` is the FIRST particle in iteration order whose bounding box contains the
point (every particle before `q` fails the hit test). -/
theorem C8_find_first_in_order (l : List Particle) (x y : ℚ) :
    (findParticleWithCords l x y = none ↔ ∀ p ∈ l, inBox p x y = false) ∧
    (∀ q : Particle, findParticleWithCords l x y = some q ↔
      ∃ l1 l2 : List Particle, l = l1 ++ q :: l2 ∧ inBox q x y = true ∧
        ∀ r ∈ l1, inBox r x y = false) := by
  constructor
  · unfold findParticleWithCords
    rw [List.find?_eq_none]
    constructor
    · intro hn p hp
      simpa using hn p hp
    · intro hall p hp
      simp [hall p hp]
  · intro q
    constructor
    · exact find_some_decomp x y q l
    · rintro ⟨l1, l2, rfl, hq, hall⟩
      exact find_append_some x y q hq l1 l2 hall

/-- C8 witness: with a non-matching particle first and a matching one
second, the characterization applies at a concrete list and point. -/
theorem C8_witness :
    findParticleWithCords [⟨50, 50, 5, 0, 0, "a", 0⟩, ⟨0, 0, 5, 0, 0, "b", 1⟩] 0 0 =
        some ⟨0, 0, 5, 0, 0, "b", 1⟩ ↔
      ∃ l1 l2 : List Particle,
        [⟨50, 50, 5, 0, 0, "a", 0⟩, (⟨0, 0, 5, 0, 0, "b", 1⟩ : Particle)] =
          l1 ++ ⟨0, 0, 5, 0, 0, "b", 1⟩ :: l2 ∧
        inBox ⟨0, 0, 5, 0, 0, "b", 1⟩ 0 0 = true ∧
        ∀ r ∈ l1, inBox r 0 0 = false :=
  (C8_find_first_in_order [⟨50, 50, 5, 0, 0, "a", 0⟩, ⟨0, 0, 5, 0, 0, "b", 1⟩] 0 0).2
    ⟨0, 0, 5, 0, 0, "b", 1⟩

lemma move_quiet (p : Particle) (mx my : ℚ) (arr : List Particle)
    (mode : TCanvasMode) (w h : ℚ)
    (hm : mode = TCanvasMode.collision → ¬ collides p mx my MOUSE_COLLISION_RADIUS)
    (ha : ∀ q ∈ arr, p.id = q.id ∨ ¬ collides p q.x q.y q.size)
    (hbx : ¬ (p.x + p.size ≥ w ∨ p.x - p.size ≤ 0))
    (hby : ¬ (p.y + p.size ≥ h ∨ p.y - p.size ≤ 0)) :
    move p mx my arr mode true w h =
      ⟨p.x + p.dirX, p.y + p.dirY, p.size,
       p.dirX - p.dirX * PARTICLE_VELOCITY_LEAK_MODIFIER,
       p.dirY - p.dirY * PARTICLE_VELOCITY_LEAK_MODIFIER, p.color, p.id⟩ := by
  have hcp : collidePhase p mx my arr mode = p := by
    unfold collidePhase
    cases mode with
    | collision =>
      dsimp only
      rw [collideWithRadius_of_not (hm rfl)]
      exact collideFold_id arr p ha
    | edit =>
      dsimp only
      exact collideFold_id arr p ha
  rw [move_phases, hcp, bounceX_of_neg hbx, bounceY_of_neg hby]
  rfl

/-- C6: with the velocity leak enabled and no pointer collision, no pairwise
collision and no boundary trigger at any tick, each velocity component is
multiplied by the constant factor `1 - LEAK` every tick; hence it equals
`dir * (1-LEAK)^k` after `k` ticks, its magnitude strictly decreases each
tick while nonzero, its sign never flips, and it tends to `0`. -/
theorem C6_leak_monotone (p : Particle) (mx my : ℕ → ℚ) (arr : ℕ → List Particle)
    (mode : TCanvasMode) (w h : ℚ)
    (hm : ∀ k, mode = TCanvasMode.collision →
      ¬ collides (evolve p mx my arr mode w h k) (mx k) (my k) MOUSE_COLLISION_RADIUS)
    (ha : ∀ k, ∀ q ∈ arr k, (evolve p mx my arr mode w h k).id = q.id ∨
      ¬ collides (evolve p mx my arr mode w h k) q.x q.y q.size)
    (hbx : ∀ k, ¬ ((evolve p mx my arr mode w h k).x +
        (evolve p mx my arr mode w h k).size ≥ w ∨
      (evolve p mx my arr mode w h k).x - (evolve p mx my arr mode w h k).size ≤ 0))
    (hby : ∀ k, ¬ ((evolve p mx my arr mode w h k).y +
        (evolve p mx my arr mode w h k).size ≥ h ∨
      (evolve p mx my arr mode w h k).y - (evolve p mx my arr mode w h k).size ≤ 0)) :
    (∀ k, (evolve p mx my arr mode w h (k + 1)).dirX =
        (evolve p mx my arr mode w h k).dirX * (1 - PARTICLE_VELOCITY_LEAK_MODIFIER) ∧
      (evolve p mx my arr mode w h (k + 1)).dirY =
        (evolve p mx my arr mode w h k).dirY * (1 - PARTICLE_VELOCITY_LEAK_MODIFIER)) ∧
    (∀ k, (evolve p mx my arr mode w h k).dirX =
        p.dirX * (1 - PARTICLE_VELOCITY_LEAK_MODIFIER) ^ k ∧
      (evolve p mx my arr mode w h k).dirY =
        p.dirY * (1 - PARTICLE_VELOCITY_LEAK_MODIFIER) ^ k) ∧
    (∀ k, ((evolve p mx my arr mode w h k).dirX ≠ 0 →
        |(evolve p mx my arr mode w h (k + 1)).dirX| <
          |(evolve p mx my arr mode w h k).dirX|) ∧
      ((evolve p mx my arr mode w h k).dirY ≠ 0 →
        |(evolve p mx my arr mode w h (k + 1)).dirY| <
          |(evolve p mx my arr mode w h k).dirY|)) ∧
    (∀ k, (0 < p.dirX → 0 < (evolve p mx my arr mode w h k).dirX) ∧
      (p.dirX < 0 → (evolve p mx my arr mode w h k).dirX < 0) ∧
      (0 < p.dirY → 0 < (evolve p mx my arr mode w h k).dirY) ∧
      (p.dirY < 0 → (evolve p mx my arr mode w h k).dirY < 0)) ∧
    (Filter.Tendsto (fun k => (evolve p mx my arr mode w h k).dirX)
        Filter.atTop (nhds 0) ∧
     Filter.Tendsto (fun k => (evolve p mx my arr mode w h k).dirY)
        Filter.atTop (nhds 0)) := by
  have hc0 : (0 : ℚ) < 1 - PARTICLE_VELOCITY_LEAK_MODIFIER := by
    norm_num [PARTICLE_VELOCITY_LEAK_MODIFIER]
  have hc1 : 1 - PARTICLE_VELOCITY_LEAK_MODIFIER < 1 := by
    norm_num [PARTICLE_VELOCITY_LEAK_MODIFIER]
  have hstep : ∀ k, (evolve p mx my arr mode w h (k + 1)).dirX =
      (evolve p mx my arr mode w h k).dirX * (1 - PARTICLE_VELOCITY_LEAK_MODIFIER) ∧
      (evolve p mx my arr mode w h (k + 1)).dirY =
      (evolve p mx my arr mode w h k).dirY * (1 - PARTICLE_VELOCITY_LEAK_MODIFIER) := by
    intro k
    have hq := move_quiet (evolve p mx my arr mode w h k) (mx k) (my k) (arr k)
      mode w h (hm k) (ha k) (hbx k) (hby k)
    constructor
    · show (move (evolve p mx my arr mode w h k) (mx k) (my k) (arr k)
        mode true w h).dirX = _
      rw [hq]
      dsimp only
      ring
    · show (move (evolve p mx my arr mode w h k) (mx k) (my k) (arr k)
        mode true w h).dirY = _
      rw [hq]
      dsimp only
      ring
  have hgeom : ∀ k, (evolve p mx my arr mode w h k).dirX =
      p.dirX * (1 - PARTICLE_VELOCITY_LEAK_MODIFIER) ^ k ∧
      (evolve p mx my arr mode w h k).dirY =
      p.dirY * (1 - PARTICLE_VELOCITY_LEAK_MODIFIER) ^ k := by
    intro k
    induction k with
    | zero => exact ⟨by simp [evolve], by simp [evolve]⟩
    | succ n ih =>
      constructor
      · rw [(hstep n).1, ih.1]
        ring
      · rw [(hstep n).2, ih.2]
        ring
  have hdec : ∀ k, ((evolve p mx my arr mode w h k).dirX ≠ 0 →
      |(evolve p mx my arr mode w h (k + 1)).dirX| <
        |(evolve p mx my arr mode w h k).dirX|) ∧
      ((evolve p mx my arr mode w h k).dirY ≠ 0 →
      |(evolve p mx my arr mode w h (k + 1)).dirY| <
        |(evolve p mx my arr mode w h k).dirY|) := by
    intro k
    constructor
    · intro hne
      rw [(hstep k).1, abs_mul, abs_of_pos hc0]
      have hpos : 0 < |(evolve p mx my arr mode w h k).dirX| := abs_pos.mpr hne
      nlinarith
    · intro hne
      rw [(hstep k).2, abs_mul, abs_of_pos hc0]
      have hpos : 0 < |(evolve p mx my arr mode w h k).dirY| := abs_pos.mpr hne
      nlinarith
  have hsign : ∀ k, (0 < p.dirX → 0 < (evolve p mx my arr mode w h k).dirX) ∧
      (p.dirX < 0 → (evolve p mx my arr mode w h k).dirX < 0) ∧
      (0 < p.dirY → 0 < (evolve p mx my arr mode w h k).dirY) ∧
      (p.dirY < 0 → (evolve p mx my arr mode w h k).dirY < 0) := by
    intro k
    have hck : (0 : ℚ) < (1 - PARTICLE_VELOCITY_LEAK_MODIFIER) ^ k := pow_pos hc0 k
    refine ⟨fun hp => ?_, fun hp => ?_, fun hp => ?_, fun hp => ?_⟩
    · rw [(hgeom k).1]; exact mul_pos hp hck
    · rw [(hgeom k).1]; exact mul_neg_of_neg_of_pos hp hck
    · rw [(hgeom k).2]; exact mul_pos hp hck
    · rw [(hgeom k).2]; exact mul_neg_of_neg_of_pos hp hck
  have hpow : Filter.Tendsto
      (fun k : ℕ => (1 - PARTICLE_VELOCITY_LEAK_MODIFIER) ^ k)
      Filter.atTop (nhds (0 : ℚ)) :=
    tendsto_pow_atTop_nhds_zero_of_lt_one hc0.le hc1
  have htend : Filter.Tendsto (fun k => (evolve p mx my arr mode w h k).dirX)
      Filter.atTop (nhds 0) ∧
      Filter.Tendsto (fun k => (evolve p mx my arr mode w h k).dirY)
      Filter.atTop (nhds 0) := by
    constructor
    · have h1 := hpow.const_mul p.dirX
      rw [mul_zero] at h1
      exact h1.congr fun k => ((hgeom k).1).symm
    · have h1 := hpow.const_mul p.dirY
      rw [mul_zero] at h1
      exact h1.congr fun k => ((hgeom k).2).symm
  exact ⟨hstep, hgeom, hdec, hsign, htend⟩

lemma evolve_zero_velocity_fixed : ∀ k,
    evolve ⟨100, 100, 10, 0, 0, "c", 0⟩ (fun _ => 0) (fun _ => 0) (fun _ => [])
      TCanvasMode.edit 200 200 k = ⟨100, 100, 10, 0, 0, "c", 0⟩ := by
  intro k
  induction k with
  | zero => rfl
  | succ n ih =>
    show move (evolve ⟨100, 100, 10, 0, 0, "c", 0⟩ (fun _ => 0) (fun _ => 0)
        (fun _ => []) TCanvasMode.edit 200 200 n) 0 0 [] TCanvasMode.edit true 200 200 =
      ⟨100, 100, 10, 0, 0, "c", 0⟩
    rw [ih]
    rw [move_quiet ⟨100, 100, 10, 0, 0, "c", 0⟩ 0 0 [] TCanvasMode.edit 200 200
      (fun hmode => absurd hmode (by simp)) (fun q hq => absurd hq (List.not_mem_nil q))
      (by norm_num) (by norm_num)]
    norm_num

/-- C6 witness: a motionless particle in the middle of the arena satisfies
the quiet-tick hypotheses at every tick. -/
theorem C6_witness :
    (evolve ⟨100, 100, 10, 0, 0, "c", 0⟩ (fun _ => 0) (fun _ => 0) (fun _ => [])
        TCanvasMode.edit 200 200 5).dirX =
      (0 : ℚ) * (1 - PARTICLE_VELOCITY_LEAK_MODIFIER) ^ 5 :=
  ((C6_leak_monotone ⟨100, 100, 10, 0, 0, "c", 0⟩ (fun _ => 0) (fun _ => 0)
      (fun _ => []) TCanvasMode.edit 200 200
      (fun _ hmode => absurd hmode (by simp))
      (fun _ q hq => absurd hq (List.not_mem_nil q))
      (fun k => by rw [evolve_zero_velocity_fixed k]; norm_num)
      (fun k => by rw [evolve_zero_velocity_fixed k]; norm_num)).2.1 5).1
